import Mathlib

/-!
Verification of the configuration-language analyzer in `analizador27.py`
(tokenizer, recursive-descent parser, per-game schema validators).

The tokenizer, parser and validators are embedded shallowly below; the
Python regular expression scan of `Tokenizer.tokenize` is realized as an
explicit left-to-right alternation scan, and the mutually recursive parser
methods are realized as fuel-indexed total functions (the fuel only bounds
the call depth; `parse` supplies enough fuel for any token list, and the
theorems quantify over the fuel where they are general).
-/

set_option maxRecDepth 16384

namespace Analizador

/-! ## Lexer: character classes (ASCII reading of the Python regex classes) -/

/-- Decimal digit, the regex class `\d` (ASCII reading). -/
def isDigitC (c : Char) : Bool := '0' ≤ c && c ≤ '9'

/-- Word character, the regex class `\w` (ASCII reading): letters, digits, `_`. -/
def isWordC (c : Char) : Bool :=
  ('a' ≤ c && c ≤ 'z') || ('A' ≤ c && c ≤ 'Z') || isDigitC c || c = '_'

/-- Structural operator characters accepted by the third regex alternative. -/
def isOpC (c : Char) : Bool :=
  c = '{' || c = '}' || c = '[' || c = ']' || c = '=' || c = ',' || c = ':'

/-- Python `str.strip` whitespace (the ASCII whitespace characters). -/
def isSpaceC (c : Char) : Bool :=
  c = ' ' || c = '\t' || c = '\n' || c = '\r' || c = '\x0b' || c = '\x0c'

/-- Both-ends whitespace trim, Python `str.strip()`. -/
def trimChars (l : List Char) : List Char :=
  ((l.dropWhile isSpaceC).reverse.dropWhile isSpaceC).reverse

/-- Python `line.rstrip(String.singleton (Char.ofNat 10))`: drop trailing newline characters. -/
def rstrip_nl (l : List Char) : List Char :=
  (l.reverse.dropWhile (fun c => c = '\n')).reverse

/-- State machine of `Tokenizer._strip_inline_comments` before the final
`strip`: walks the line; outside a string a `#` cuts the rest of the line;
inside a string a backslash sets the escaped flag so the next character
cannot terminate the string. Arguments: remaining characters, `in_str`, `esc`. -/
def strip_comment_scan : List Char → Bool → Bool → List Char
  | [], _, _ => []
  | c :: cs, true, true => c :: strip_comment_scan cs true false
  | c :: cs, true, false =>
    if c = '\\' then c :: strip_comment_scan cs true true
    else if c = '"' then c :: strip_comment_scan cs false false
    else c :: strip_comment_scan cs true false
  | c :: cs, false, _ =>
    if c = '"' then c :: strip_comment_scan cs true false
    else if c = '#' then []
    else c :: strip_comment_scan cs false false

/-- `Tokenizer._strip_inline_comments`: comment stripping followed by `strip()`. -/
def strip_inline_comments (l : List Char) : List Char :=
  trimChars (strip_comment_scan l false false)

/-- Python `str.splitlines` specialized to newline separators. Python returns
no trailing empty segment for a trailing newline; this version may, and such a
segment is skipped by `tokenize_line` as an empty line, so the token output
agrees. -/
def splitNLAux : List Char → List Char → List (List Char)
  | [], acc => [acc.reverse]
  | '\n' :: cs, acc => acc.reverse :: splitNLAux cs []
  | c :: cs, acc => splitNLAux cs (c :: acc)

/-- Split a source text into physical lines (empty text has no lines). -/
def splitNL (l : List Char) : List (List Char) :=
  if l = [] then [] else splitNLAux l []

/-! ## Lexer: the regex scan

The Python line scan is
`re.findall(r'"([^"]*)"|(\d+\.?\d*)|({|}|\[|\]|=|,|:)|(\w+)', line)`:
at each position the four alternatives are tried in order, each greedy;
on failure the scan advances one character (that character is dropped). -/

/-- One findall match: which alternative fired and its captured text. -/
inductive RGroup where
  | gstr (content : List Char)
  | gnum (text : List Char)
  | gop (c : Char)
  | gword (text : List Char)
deriving DecidableEq, Repr

/-- Scan for the closing quote of the first regex alternative `"([^"]*)"`:
returns the captured content and the characters after the closing quote, or
`none` when no closing quote exists on the line (the alternative fails). -/
def splitAtQuote : List Char → Option (List Char × List Char)
  | [] => none
  | c :: cs =>
    if c = '"' then some ([], cs)
    else
      match splitAtQuote cs with
      | some (pre, post) => some (c :: pre, post)
      | none => none

/-- One attempt of the regex alternation at the current position `c :: cs`:
the fired match (or `none` when every alternative fails at `c`, in which
case `c` is dropped) and the characters the scan continues from. -/
def findallStep (c : Char) (cs : List Char) : Option RGroup × List Char :=
  if c = '"' then
    match splitAtQuote cs with
    | some (content, rest) => (some (.gstr content), rest)
    | none => (none, cs)
  else if isDigitC c then
    match cs.dropWhile isDigitC with
    | '.' :: r2 =>
      (some (.gnum (c :: cs.takeWhile isDigitC ++ '.' :: r2.takeWhile isDigitC)),
        r2.dropWhile isDigitC)
    | r1 => (some (.gnum (c :: cs.takeWhile isDigitC)), r1)
  else if isOpC c then
    (some (.gop c), cs)
  else if isWordC c then
    (some (.gword (c :: cs.takeWhile isWordC)), cs.dropWhile isWordC)
  else
    (none, cs)

/-- The findall scan with fuel (one unit per scanned position; the entry
point supplies the line length, which always suffices since every step
consumes at least one character). -/
def findallAux : Nat → List Char → List RGroup
  | 0, _ => []
  | _ + 1, [] => []
  | n + 1, c :: cs =>
    match findallStep c cs with
    | (some g, rest) => g :: findallAux n rest
    | (none, rest) => findallAux n rest

/-- The `re.findall` scan over one stripped line. -/
def regexFindall (l : List Char) : List RGroup := findallAux l.length l

/-! ## Lexer: token emission -/

/-- Numeric token payload: Python `int(text)` when the numeral has no dot,
`float(text)` when it has one (the float keeps its matched text here; no
arithmetic is ever performed on floats by the program). -/
inductive NumV where
  | int (n : Nat)
  | float (text : String)
deriving DecidableEq, Repr

/-- Tokens as produced by `Tokenizer.tokenize`. -/
inductive Token where
  | string (s : String)
  | number (v : NumV)
  | operator (c : Char)
  | identifier (s : String)
deriving DecidableEq, Repr

/-- Decimal digits to a natural number, Python `int` on a digit string. -/
def digitsToNat (l : List Char) : Nat :=
  l.foldl (fun a c => a * 10 + (c.toNat - '0'.toNat)) 0

/-- Token emission for one findall match, including the Python truthiness
test `if group[0]:` — a string match whose captured content is empty leaves
every capture group falsy, so no token at all is emitted for it. -/
def emitToken : RGroup → List Token
  | .gstr content => if content = [] then [] else [.string content.asString]
  | .gnum text =>
    if text.contains '.' then [.number (.float text.asString)]
    else [.number (.int (digitsToNat text))]
  | .gop c => [.operator c]
  | .gword text => [.identifier text.asString]

/-- Tokens of one physical line of `Tokenizer.tokenize`: strip the trailing
newline, strip the inline comment, strip whitespace, skip the line if empty,
otherwise run the regex scan and emit tokens per match. -/
def tokenize_line (l : List Char) : List Token :=
  let l1 := strip_inline_comments (rstrip_nl l)
  let l2 := trimChars l1
  if l2 = [] then [] else (regexFindall l2).map emitToken |>.flatten

/-- `Tokenizer.tokenize`: the full token sequence of a source text. -/
def tokenize (src : String) : List Token :=
  ((splitNL src.data).map tokenize_line).flatten

/-! ## Parser: values and the symbol table

In the Python source a block and a map are both plain dicts, and the
validators treat them interchangeably (`isinstance(x, dict)`), so both are
embedded as the single constructor `vdict` over an insertion-ordered
association list. -/

/-- Parsed values: integer, float, string, boolean, list, dict
(dict covers both the `mapa` production and nested block sections). -/
inductive Value where
  | vint (n : Nat)
  | vfloat (text : String)
  | vstr (s : String)
  | vbool (b : Bool)
  | vlist (l : List Value)
  | vdict (m : List (String × Value))

/-- Insertion-ordered dict lookup (Python `dict.get` / `dict[...]` on the
dicts built by the parser, whose keys are unique). -/
def dict_lookup (k : String) : List (String × Value) → Option Value
  | [] => none
  | (k2, v) :: rest => if k2 = k then some v else dict_lookup k rest

/-- Python `k in d` membership test on a dict. -/
def dictHasKey (m : List (String × Value)) (k : String) : Bool :=
  (dict_lookup k m).isSome

/-- Python `str()` of a token payload, used in error messages
(`%s` interpolation of `t[1]`). For a float payload this renders the
integer part without leading zeros and the fraction without trailing
zeros, approximating Python float repr on the literal shapes the lexer
can produce. -/
def pyStr : Token → String
  | .string s => s
  | .number (.int n) => toString n
  | .number (.float text) =>
    let ds := text.data.takeWhile isDigitC
    let fp := (text.data.dropWhile isDigitC).drop 1
    let fpTrim := (fp.reverse.dropWhile (fun c => c = '0')).reverse
    toString (digitsToNat ds) ++ "." ++ (if fpTrim = [] then "0" else fpTrim.asString)
  | .operator c => String.singleton c
  | .identifier s => s

/-- Parse failures: Python `SyntaxError` and `NameError` (the semantic
error), plus the fuel sentinel that `parse` never reaches (its fuel bound
exceeds any possible call depth for its token list). -/
inductive PErr where
  | syntaxError (msg : String)
  | nameError (msg : String)
  | fuelErr
deriving DecidableEq, Repr

/-- `Parser.expect_operator`: consume one token that must be the given operator. -/
def expect_operator (op : Char) (ts : List Token) : Except PErr (List Token) :=
  match ts with
  | [] => .error (.syntaxError ("Error de sintaxis: Se esperaba '" ++ String.singleton op
      ++ "', se encontro None"))
  | t :: rest =>
    if t = .operator op then .ok rest
    else .error (.syntaxError ("Error de sintaxis: Se esperaba '" ++ String.singleton op
      ++ "', se encontro " ++ pyStr t))

/-- `Parser.expect_kv_sep`: consume one token that must be `:` or `=`. -/
def expect_kv_sep (ts : List Token) : Except PErr (List Token) :=
  match ts with
  | [] => .error (.syntaxError "Error de sintaxis: Se esperaba ':' o '=', se encontro None")
  | t :: rest =>
    if t = .operator ':' || t = .operator '=' then .ok rest
    else .error (.syntaxError ("Error de sintaxis: Se esperaba ':' o '=', se encontro " ++ pyStr t))

mutual

/-- `Parser.parse_value`: dispatch on the next token. STRING, NUMBER and
the boolean keywords give scalars, `[` starts a list, `{` a map, and any
other token (including any other identifier) is a fatal syntax error. -/
def parse_value : Nat → List Token → Except PErr (Value × List Token)
  | 0, _ => .error .fuelErr
  | n + 1, ts =>
    match ts with
    | [] => .error (.syntaxError "Error de sintaxis: Se esperaba un valor")
    | t :: rest =>
      match t with
      | .string s => .ok (.vstr s, rest)
      | .number (.int k) => .ok (.vint k, rest)
      | .number (.float f) => .ok (.vfloat f, rest)
      | .identifier w =>
        if w = "verdadero" then .ok (.vbool true, rest)
        else if w = "falso" then .ok (.vbool false, rest)
        else .error (.syntaxError ("Error de sintaxis: Valor inesperado '" ++ w ++ "'"))
      | .operator '[' => parse_list n (Token.operator '[' :: rest)
      | .operator '{' => parse_map n (Token.operator '{' :: rest)
      | .operator c =>
        .error (.syntaxError ("Error de sintaxis: Valor inesperado '"
          ++ String.singleton c ++ "'"))

/-- `Parser.parse_list`: consume `[` and run the element loop. -/
def parse_list : Nat → List Token → Except PErr (Value × List Token)
  | 0, _ => .error .fuelErr
  | n + 1, ts =>
    match expect_operator '[' ts with
    | .error e => .error e
    | .ok rest => list_loop n [] rest

/-- Element loop of `Parser.parse_list`: `]` closes; a bare identifier
other than the boolean keywords raises the semantic `NameError`; otherwise
one value is parsed and one trailing comma, if present, is consumed. -/
def list_loop : Nat → List Value → List Token → Except PErr (Value × List Token)
  | 0, _, _ => .error .fuelErr
  | n + 1, acc, ts =>
    match ts with
    | [] => .error (.syntaxError "Error de sintaxis: Falta ']' para cerrar la lista")
    | t :: rest =>
      match t with
      | .operator ']' => .ok (.vlist acc, rest)
      | .identifier w =>
        if w ≠ "verdadero" && w ≠ "falso" then
          .error (.nameError ("Error semantico: El identificador '" ++ w
            ++ "' no ha sido definido como valor literal en listas."))
        else
          list_elem n acc (Token.identifier w :: rest)
      | _ => list_elem n acc (t :: rest)

/-- Shared tail of one `parse_list` iteration: parse the element, then
consume an optional comma, then continue the loop. -/
def list_elem : Nat → List Value → List Token → Except PErr (Value × List Token)
  | 0, _, _ => .error .fuelErr
  | n + 1, acc, ts =>
    match parse_value n ts with
    | .error e => .error e
    | .ok (v, ts2) =>
      match ts2 with
      | .operator ',' :: ts3 => list_loop n (acc ++ [v]) ts3
      | _ => list_loop n (acc ++ [v]) ts2

/-- `Parser.parse_map`: consume `{` and run the pair loop. -/
def parse_map : Nat → List Token → Except PErr (Value × List Token)
  | 0, _ => .error .fuelErr
  | n + 1, ts =>
    match expect_operator '{' ts with
    | .error e => .error e
    | .ok rest => map_loop n [] rest

/-- Pair loop of `Parser.parse_map`: `}` closes; a leading comma is
consumed and ignored; an IDENT or STRING token is a key and the pair
continues in `map_pair`; anything else is an invalid map key. -/
def map_loop : Nat → List (String × Value) → List Token → Except PErr (Value × List Token)
  | 0, _, _ => .error .fuelErr
  | n + 1, mp, ts =>
    match ts with
    | [] => .error (.syntaxError "Error de sintaxis: Falta '\x7d' para cerrar el mapa")
    | t :: rest =>
      match t with
      | .operator '}' => .ok (.vdict mp, rest)
      | .operator ',' => map_loop n mp rest
      | .identifier w => map_pair n mp w rest
      | .string s => map_pair n mp s rest
      | _ => .error (.syntaxError
          ("Error de sintaxis: Clave invalida en mapa (usa IDENT o STRING), se encontro "
            ++ pyStr t))

/-- One key/value pair of `Parser.parse_map` after its key: a `:` or `=`
separator, one value, and the duplicate-key check (raised only after the
value parses, as in the source). -/
def map_pair : Nat → List (String × Value) → String → List Token → Except PErr (Value × List Token)
  | 0, _, _, _ => .error .fuelErr
  | n + 1, mp, k, rest =>
    match expect_kv_sep rest with
    | .error e => .error e
    | .ok rest2 =>
      match parse_value n rest2 with
      | .error e => .error e
      | .ok (v, rest3) =>
        if dictHasKey mp k then
          .error (.syntaxError ("Error: Clave duplicada '" ++ k ++ "' en mapa"))
        else map_loop n (mp ++ [(k, v)]) rest3

/-- `Parser.parse_block_section`: consume `{` and run the member loop. -/
def parse_block_section : Nat → List Token → Except PErr (Value × List Token)
  | 0, _ => .error .fuelErr
  | n + 1, ts =>
    match expect_operator '{' ts with
    | .error e => .error e
    | .ok rest => block_loop n [] rest

/-- Member loop of `Parser.parse_block_section`: `}` closes; an identifier
key followed by `=` starts an assignment, followed by `{` a nested section;
a duplicate key either way is a fatal error (raised only after the value or
sub-block parses, as in the source); a non-identifier member is fatal. -/
def block_loop : Nat → List (String × Value) → List Token → Except PErr (Value × List Token)
  | 0, _, _ => .error .fuelErr
  | n + 1, blk, ts =>
    match ts with
    | [] => .error (.syntaxError "Error de sintaxis: Falta '\x7d' para cerrar el bloque")
    | t :: rest =>
      match t with
      | .operator '}' => .ok (.vdict blk, rest)
      | .identifier key =>
        (match rest with
         | .operator '=' :: rest2 =>
           (match parse_value n rest2 with
            | .error e => .error e
            | .ok (v, rest3) =>
              if dictHasKey blk key then
                .error (.syntaxError ("Error: Redefinicion de clave '" ++ key
                  ++ "' en el mismo bloque"))
              else block_loop n (blk ++ [(key, v)]) rest3)
         | .operator '{' :: _ =>
           (match parse_block_section n rest with
            | .error e => .error e
            | .ok (sub, rest3) =>
              if dictHasKey blk key then
                .error (.syntaxError ("Error: Redefinicion de seccion '" ++ key
                  ++ "' en el mismo bloque"))
              else block_loop n (blk ++ [(key, sub)]) rest3)
         | _ => .error (.syntaxError ("Error de sintaxis: Tras '" ++ key
             ++ "' se esperaba '=' o '\x7b'")))
      | _ => .error (.syntaxError
          ("Error de sintaxis en bloque: Se esperaba un identificador, se encontro " ++ pyStr t))

end

/-- Declaration loop of `Parser.parse`: each declaration is the keyword
`juego`, a STRING entity name and a block; re-declaring an entity name is a
fatal error; the finished symbol table preserves declaration order. -/
def parse_loop : Nat → List (String × Value) → List Token → Except PErr (List (String × Value))
  | 0, _, _ => .error .fuelErr
  | n + 1, st, ts =>
    match ts with
    | [] => .ok st
    | t :: rest =>
      match t with
      | .identifier w =>
        if w = "juego" then
          match rest with
          | .string gname :: rest2 =>
            (match parse_block_section n rest2 with
             | .error e => .error e
             | .ok (blk, rest3) =>
               if dictHasKey st gname then
                 .error (.syntaxError ("Error de sintaxis: El juego '" ++ gname
                   ++ "' ya fue declarado"))
               else parse_loop n (st ++ [(gname, blk)]) rest3)
          | _ => .error (.syntaxError "Error de sintaxis: Se esperaba un nombre de juego entre comillas")
        else .error (.syntaxError ("Error de sintaxis: Se esperaba 'juego', se encontro " ++ w))
      | _ => .error (.syntaxError ("Error de sintaxis: Se esperaba 'juego', se encontro " ++ pyStr t))

/-- `Parser.parse`: the symbol table of a token sequence. The fuel bound
`5 * length + 8` dominates the parser's call depth: between two consumed
tokens at most four nested calls are entered (the longest such chain is
`list_loop` to `list_elem` to `parse_value` to `parse_list`). -/
def parse (ts : List Token) : Except PErr (List (String × Value)) :=
  parse_loop (5 * ts.length + 8) [] ts

/-! ## Schema validators

`validate_snake` / `validate_tetris` / `validate_all`. Python booleans are
instances of `int`, which `is_int_strict` compensates for; the violation
the validators can actually hit is `section.get(...)` on a non-dict value,
an uncaught `AttributeError`, modelled as result `none`. The argument of
`get`/`[...]`/`in` below is an `Option Value` so that the missing-key
`None` flows through the type tests exactly as in Python. -/

/-- Python `isinstance(x, (int, long))`; booleans are a subclass of int. -/
def isinstance_int : Option Value → Bool
  | some (.vint _) => true
  | some (.vbool _) => true
  | _ => false

/-- Python `isinstance(x, bool)`. -/
def isinstance_bool : Option Value → Bool
  | some (.vbool _) => true
  | _ => false

/-- `is_int_strict`: an int that is not a bool. -/
def is_int_strict (x : Option Value) : Bool :=
  isinstance_int x && !isinstance_bool x

/-- `is_str`: Python `isinstance(x, basestring)`. -/
def is_str : Option Value → Bool
  | some (.vstr _) => true
  | _ => false

/-- The comparison `d[k] > 0`, evaluated only after `is_int_strict` holds,
so only the integer case matters. -/
def int_gt_zero : Option Value → Bool
  | some (.vint n) => decide (0 < n)
  | _ => false

/-- The comparison `pl[k] < 0`, evaluated only after `is_int_strict` holds;
parsed integer literals are digit sequences, hence never negative, which the
`Nat` payload records. -/
def int_lt_zero : Option Value → Bool
  | some (.vint _) => false
  | _ => false

/-- Controls loop of `validate_snake`: each of the four direction keys must
be a string. Result `none` is the `AttributeError` of `con.get(k)` on a
non-dict `controles` value. -/
def snake_controls : Value → List String → Option (Bool × String)
  | _, [] => some (true, "Snake OK")
  | con, k :: ks =>
    match con with
    | .vdict cm =>
      if !is_str (dict_lookup k cm) then
        some (false, "Snake: controles." ++ k ++ " debe ser cadena")
      else snake_controls con ks
    | _ => none

/-- `validate_snake`. Result `none` is an uncaught `AttributeError`
(a section value that is not a dict reached a `.get`); `some (ok, msg)`
is the Python return pair. -/
def validate_snake (cfg : Value) : Option (Bool × String) :=
  match cfg with
  | .vdict m =>
    let missing := ["rejilla", "velocidad", "controles"].filter (fun k => !dictHasKey m k)
    if missing ≠ [] then
      some (false, "Snake: faltan secciones: " ++ String.intercalate ", " missing)
    else
      match dict_lookup "rejilla" m, dict_lookup "velocidad" m, dict_lookup "controles" m with
      | some rej, some vel, some con =>
        match rej with
        | .vdict rm =>
          if !(is_int_strict (dict_lookup "ancho" rm) && int_gt_zero (dict_lookup "ancho" rm)) then
            some (false, "Snake: rejilla.ancho debe ser entero > 0")
          else if !(is_int_strict (dict_lookup "alto" rm) && int_gt_zero (dict_lookup "alto" rm)) then
            some (false, "Snake: rejilla.alto debe ser entero > 0")
          else
            match vel with
            | .vdict vm =>
              if !(is_int_strict (dict_lookup "tick_ms" vm) && int_gt_zero (dict_lookup "tick_ms" vm)) then
                some (false, "Snake: velocidad.tick_ms debe ser entero > 0")
              else snake_controls con ["arriba", "abajo", "izquierda", "derecha"]
            | _ => none
        | _ => none
      | _, _, _ => none
  | _ => none

/-- Score-table loop of `validate_tetris`: keys `1`..`4` must be present
strict integers `>= 0`. This loop runs with the dict already in hand and
cannot raise; `none` here means every key passed. -/
def tetris_lines_check (pl : List (String × Value)) : List String → Option String
  | [] => none
  | k :: ks =>
    if !dictHasKey pl k || !is_int_strict (dict_lookup k pl) || int_lt_zero (dict_lookup k pl) then
      some ("Tetris: puntuacion.por_linea['" ++ k ++ "'] debe ser entero >= 0")
    else tetris_lines_check pl ks

/-- Optional-field loop of `validate_tetris`: `soft_drop_ms` and
`lock_delay_ms`, when present, must be strict integers. Runs with the dict
already in hand and cannot raise; `none` means every option passed. -/
def tetris_opts_check (vm : List (String × Value)) : List String → Option String
  | [] => none
  | o :: os =>
    if dictHasKey vm o && !is_int_strict (dict_lookup o vm) then
      some ("Tetris: velocidad." ++ o ++ " debe ser entero")
    else tetris_opts_check vm os

/-- `validate_tetris`. Result `none` is an uncaught `AttributeError`;
`some (ok, msg)` is the Python return pair. -/
def validate_tetris (cfg : Value) : Option (Bool × String) :=
  match cfg with
  | .vdict m =>
    let missing := ["rejilla", "velocidad", "puntuacion"].filter (fun k => !dictHasKey m k)
    if missing ≠ [] then
      some (false, "Tetris: faltan secciones: " ++ String.intercalate ", " missing)
    else
      match dict_lookup "rejilla" m, dict_lookup "velocidad" m, dict_lookup "puntuacion" m with
      | some rej, some vel, some pun =>
        match rej with
        | .vdict rm =>
          if !(is_int_strict (dict_lookup "ancho" rm) && int_gt_zero (dict_lookup "ancho" rm)) then
            some (false, "Tetris: rejilla.ancho debe ser entero > 0")
          else if !(is_int_strict (dict_lookup "alto" rm) && int_gt_zero (dict_lookup "alto" rm)) then
            some (false, "Tetris: rejilla.alto debe ser entero > 0")
          else
            match vel with
            | .vdict vm =>
              if !(is_int_strict (dict_lookup "gravedad_ms" vm)
                    && int_gt_zero (dict_lookup "gravedad_ms" vm)) then
                some (false, "Tetris: velocidad.gravedad_ms debe ser entero > 0")
              else
                match pun with
                | .vdict pm =>
                  (match dict_lookup "por_linea" pm with
                   | some (.vdict pl) =>
                     (match tetris_lines_check pl ["1", "2", "3", "4"] with
                      | some msg => some (false, msg)
                      | none =>
                        match tetris_opts_check vm ["soft_drop_ms", "lock_delay_ms"] with
                        | some msg => some (false, msg)
                        | none => some (true, "Tetris OK"))
                   | _ => some (false, "Tetris: puntuacion.por_linea debe ser un mapa"))
                | _ => none
            | _ => none
        | _ => none
      | _, _, _ => none
  | _ => none

/-- One validation record of `validate_all`. -/
structure VRecord where
  juego : String
  valido : Bool
  mensaje : String
deriving DecidableEq, Repr

/-- `validate_all`: one record per entity in symbol-table order, dispatching
the per-game validator on the exact entity name; an exception inside a
validator (result `none`) aborts the whole traversal. -/
def validate_all : List (String × Value) → Option (List VRecord)
  | [] => some []
  | (gname, cfg) :: rest =>
    match (if gname = "snake" then validate_snake cfg
           else if gname = "tetris" then validate_tetris cfg
           else some (true, "Juego generico (sin validador especifico)")) with
    | none => none
    | some (ok, msg) =>
      match validate_all rest with
      | none => none
      | some rs => some ({ juego := gname, valido := ok, mensaje := msg } :: rs)

/-! ## Concrete programs used in the theorems -/

/-- A snake declaration whose three required sections are bound by
assignments to scalar values instead of nested blocks. -/
def srcSnakeScalarSections : String :=
  "juego \"snake\" \x7b rejilla = 1 velocidad = 2 controles = 3 \x7d"

/-- Scenario 3 of the specification, literally: the `por_linea` score map
written in section syntax with unquoted numeral keys and mixed `:`/`=`
separators. -/
def srcTetrisSec3Literal : String :=
  "juego \"tetris\" \x7b rejilla \x7b ancho=10 alto=20 \x7d velocidad \x7b gravedad_ms=500 \x7d puntuacion \x7b por_linea \x7b 1:100, 2:300 3=500 \"4\"=800 \x7d \x7d \x7d"

/-- Scenario 3 with assignment syntax (`por_linea = { ... }`) but still the
unquoted numeral keys. -/
def srcTetrisSec3MapAssign : String :=
  "juego \"tetris\" \x7b rejilla \x7b ancho=10 alto=20 \x7d velocidad \x7b gravedad_ms=500 \x7d puntuacion \x7b por_linea = \x7b 1:100, 2:300 3=500 \"4\"=800 \x7d \x7d \x7d"

/-- Scenario 3 as the grammar actually accepts it: assignment syntax and
quoted numeral keys, keeping the mixed separators and optional commas. -/
def srcTetrisSec3Accepted : String :=
  "juego \"tetris\" \x7b rejilla \x7b ancho=10 alto=20 \x7d velocidad \x7b gravedad_ms=500 \x7d puntuacion \x7b por_linea = \x7b \"1\":100, \"2\":300 \"3\"=500 \"4\"=800 \x7d \x7d \x7d"

/-- The symbol table of `srcTetrisSec3Accepted`. -/
def tblTetrisSec3 : List (String × Value) :=
  [("tetris", .vdict
    [("rejilla", .vdict [("ancho", .vint 10), ("alto", .vint 20)]),
     ("velocidad", .vdict [("gravedad_ms", .vint 500)]),
     ("puntuacion", .vdict
       [("por_linea", .vdict
         [("1", .vint 100), ("2", .vint 300), ("3", .vint 500), ("4", .vint 800)])])])]

/-- The minimal valid snake configuration (Scenario 1 of the spec). -/
def srcSnakeMinimal : String :=
  "juego \"snake\" \x7b rejilla \x7b ancho=10 alto=10 \x7d velocidad \x7b tick_ms=100 \x7d controles \x7b arriba=\"W\" abajo=\"S\" izquierda=\"A\" derecha=\"D\" \x7d \x7d"

/-- The symbol table of `srcSnakeMinimal`. -/
def tblSnakeMinimal : List (String × Value) :=
  [("snake", .vdict
    [("rejilla", .vdict [("ancho", .vint 10), ("alto", .vint 10)]),
     ("velocidad", .vdict [("tick_ms", .vint 100)]),
     ("controles", .vdict
       [("arriba", .vstr "W"), ("abajo", .vstr "S"),
        ("izquierda", .vstr "A"), ("derecha", .vstr "D")])])]

/-! ## Predicates used in the theorem statements -/

/-- Recursive key-uniqueness invariant of a value: every dict anywhere
inside it (maps and nested block sections alike) has pairwise distinct keys
at its own level. -/
inductive ValueUnique : Value → Prop where
  | vint : ∀ n, ValueUnique (.vint n)
  | vfloat : ∀ t, ValueUnique (.vfloat t)
  | vstr : ∀ s, ValueUnique (.vstr s)
  | vbool : ∀ b, ValueUnique (.vbool b)
  | vlist : ∀ l, (∀ v ∈ l, ValueUnique v) → ValueUnique (.vlist l)
  | vdict : ∀ m, (m.map Prod.fst).Nodup → (∀ p ∈ m, ValueUnique p.2) →
      ValueUnique (.vdict m)

/-- Key-uniqueness invariant of a symbol table: entity names are pairwise
distinct and every entity value satisfies `ValueUnique`. -/
def TableUnique (tbl : List (String × Value)) : Prop :=
  (tbl.map Prod.fst).Nodup ∧ ∀ p ∈ tbl, ValueUnique p.2

/-- A configuration value is a dict whose `rejilla`, `velocidad`,
`controles` and `puntuacion` entries, where present, are themselves dicts —
the precondition under which the per-game validators cannot hit an
`AttributeError`. -/
def sections_are_dicts (cfg : Value) : Bool :=
  match cfg with
  | .vdict m =>
    ["rejilla", "velocidad", "controles", "puntuacion"].all (fun s =>
      match dict_lookup s m with
      | some (.vdict _) => true
      | some _ => false
      | none => true)
  | _ => false

/-- The numeral shape of the second regex alternative `\d+\.?\d*`: one or
more digits, optionally followed by a dot and zero or more digits. -/
def numShape (s : List Char) : Bool :=
  match s with
  | [] => false
  | c :: _ =>
    isDigitC c &&
      (match s.dropWhile isDigitC with
       | [] => true
       | '.' :: t => t.all isDigitC
       | _ => false)

/-- Whether a character list starts with a decimal digit. -/
def startsDigit : List Char → Bool
  | [] => false
  | c :: _ => isDigitC c

/-- Whether a character list starts with a dot. -/
def startsDot : List Char → Bool
  | [] => false
  | c :: _ => c = '.'

/-! ## Theorems -/

/-! ### Lexer infrastructure lemmas -/

theorem splitAtQuote_some_length {cs pre post : List Char}
    (h : splitAtQuote cs = some (pre, post)) : post.length < cs.length := by
  induction cs generalizing pre post with
  | nil => simp [splitAtQuote] at h
  | cons c cs ih =>
    by_cases hc : c = '"'
    · simp only [splitAtQuote, if_pos hc, Option.some.injEq, Prod.mk.injEq] at h
      obtain ⟨h1, h2⟩ := h
      subst h2
      simp
    · simp only [splitAtQuote, if_neg hc] at h
      cases hq : splitAtQuote cs with
      | none => rw [hq] at h; simp at h
      | some p =>
        obtain ⟨p1, p2⟩ := p
        rw [hq] at h
        simp only [Option.some.injEq, Prod.mk.injEq] at h
        obtain ⟨h1, h2⟩ := h
        subst h2
        simpa using Nat.lt_succ_of_lt (ih hq)

theorem splitAtQuote_eq_none {cs : List Char} (h : '"' ∉ cs) :
    splitAtQuote cs = none := by
  induction cs with
  | nil => rfl
  | cons c cs ih =>
    have hc : c ≠ '"' := fun he => h (he ▸ List.mem_cons_self c cs)
    have hcs : '"' ∉ cs := fun hm => h (List.mem_cons_of_mem c hm)
    simp [splitAtQuote, hc, ih hcs]

theorem dropWhile_length_le (p : Char → Bool) (l : List Char) :
    (l.dropWhile p).length ≤ l.length := by
  induction l with
  | nil => simp
  | cons c cs ih =>
    by_cases h : p c
    · rw [List.dropWhile_cons_of_pos h]
      exact Nat.le_succ_of_le ih
    · rw [List.dropWhile_cons_of_neg h]

theorem findallStep_snd_length (c : Char) (cs : List Char) :
    (findallStep c cs).2.length ≤ cs.length := by
  unfold findallStep
  split_ifs with h1 h2 h3 h4
  · split
    next content rest hq => exact Nat.le_of_lt (splitAtQuote_some_length hq)
    next => simp
  · split
    next r2 heq =>
      have h5 := dropWhile_length_le isDigitC cs
      rw [heq] at h5
      simp only [List.length_cons] at h5
      have h6 := dropWhile_length_le isDigitC r2
      show (r2.dropWhile isDigitC).length ≤ cs.length
      omega
    next x hni =>
      simpa using dropWhile_length_le isDigitC cs
  · simp
  · simpa using dropWhile_length_le isWordC cs
  · simp

theorem findallAux_fuel_irrel : ∀ (n m : Nat) (l : List Char),
    l.length ≤ n → l.length ≤ m → findallAux n l = findallAux m l := by
  intro n
  induction n with
  | zero =>
    intro m l hn hm
    have : l = [] := List.length_eq_zero.mp (Nat.le_zero.mp hn)
    subst this
    cases m <;> rfl
  | succ n ih =>
    intro m l hn hm
    cases l with
    | nil => cases m <;> rfl
    | cons c cs =>
      cases m with
      | zero => simp at hm
      | succ m =>
        simp only [findallAux]
        have hlen : (findallStep c cs).2.length ≤ cs.length := findallStep_snd_length c cs
        have hcs_n : cs.length ≤ n := by simpa using hn
        have hcs_m : cs.length ≤ m := by simpa using hm
        cases hs : findallStep c cs with
        | mk og rest =>
          rw [hs] at hlen
          cases og with
          | some g =>
            simp only []
            rw [ih m rest (Nat.le_trans hlen hcs_n) (Nat.le_trans hlen hcs_m)]
          | none =>
            simp only []
            rw [ih m rest (Nat.le_trans hlen hcs_n) (Nat.le_trans hlen hcs_m)]

theorem regexFindall_cons (c : Char) (cs : List Char) :
    regexFindall (c :: cs) =
      (match findallStep c cs with
       | (some g, rest) => g :: regexFindall rest
       | (none, rest) => regexFindall rest) := by
  show findallAux (c :: cs).length (c :: cs) = _
  simp only [List.length_cons, findallAux]
  have hlen := findallStep_snd_length c cs
  cases hs : findallStep c cs with
  | mk og rest =>
    rw [hs] at hlen
    cases og with
    | some g =>
      simp only []
      rw [findallAux_fuel_irrel cs.length rest.length rest hlen (Nat.le_refl _)]
      rfl
    | none =>
      simp only []
      rw [findallAux_fuel_irrel cs.length rest.length rest hlen (Nat.le_refl _)]
      rfl

/-- C3 counterexample: the content of an unterminated string literal is not
omitted from the token stream — it is rescanned as ordinary text. On the
line `x = "5` the tokenizer drops only the quote character and then emits
`NUMBER 5` from the literal's content, so a token derived from the
unterminated literal does appear in the output. -/
theorem c3_unterminated_counterexample :
    tokenize "x = \"5" =
      [.identifier "x", .operator '=', .number (.int 5)] := rfl

/-- C3 amended: the tokenizer is total by construction and never signals an
error; a character at which every regex alternative fails (a stray symbol,
or the opening quote of an unterminated literal) is dropped from the scan,
but the characters after a dropped unterminated quote are rescanned as
ordinary lexical units rather than omitted. -/
theorem c3_lossy_drop_behavior :
    (∀ w : List Char, '"' ∉ w → regexFindall ('"' :: w) = regexFindall w) ∧
    (∀ (c : Char) (cs : List Char), c ≠ '"' → isDigitC c = false → isOpC c = false →
      isWordC c = false → regexFindall (c :: cs) = regexFindall cs) := by
  constructor
  · intro w hw
    rw [regexFindall_cons]
    simp [findallStep, splitAtQuote_eq_none hw]
  · intro c cs hq hd ho hw
    rw [regexFindall_cons]
    simp [findallStep, hq, hd, ho, hw]

/-- Witness for `c3_lossy_drop_behavior`: the unterminated literal line
`"abc` rescans to the identifier `abc`, and a stray `&` is dropped. -/
theorem c3_lossy_drop_behavior_witness :
    regexFindall ('"' :: ['a', 'b', 'c']) = regexFindall ['a', 'b', 'c'] ∧
    regexFindall ('&' :: ['x']) = regexFindall ['x'] :=
  ⟨c3_lossy_drop_behavior.1 ['a', 'b', 'c'] (by decide),
   c3_lossy_drop_behavior.2 '&' ['x'] (by decide) (by decide) (by decide) (by decide)⟩

/-- C9 amended: an empty double-quoted literal `""` is matched by the
string alternative with empty captured content, and the truthiness test of
the emission loop then emits no token at all for it; consequently
`key = ""` never binds `key` to an empty string — the parser simply sees
the next token, failing when no parseable value follows (here with the
unexpected `\x7d` of the enclosing block). -/
theorem c9_empty_string_dropped :
    (∀ l : List Char, regexFindall ('"' :: '"' :: l) = .gstr [] :: regexFindall l) ∧
    emitToken (.gstr []) = [] ∧
    parse (tokenize "juego \"g\" \x7b a = \"\" \x7d") =
      .error (.syntaxError "Error de sintaxis: Valor inesperado '\x7d'") := by
  refine ⟨?_, rfl, rfl⟩
  intro l
  rw [regexFindall_cons]
  simp [findallStep, splitAtQuote]

theorem takeWhile_append_all {p : Char → Bool} {xs ys : List Char}
    (h : ∀ x ∈ xs, p x = true) : (xs ++ ys).takeWhile p = xs ++ ys.takeWhile p := by
  induction xs with
  | nil => simp
  | cons a l ih =>
    have ha : p a = true := h a (List.mem_cons_self a l)
    simp [List.takeWhile_cons_of_pos ha,
      ih (fun x hx => h x (List.mem_cons_of_mem a hx))]

theorem dropWhile_append_all {p : Char → Bool} {xs ys : List Char}
    (h : ∀ x ∈ xs, p x = true) : (xs ++ ys).dropWhile p = ys.dropWhile p := by
  induction xs with
  | nil => simp
  | cons a l ih =>
    have ha : p a = true := h a (List.mem_cons_self a l)
    simp [List.dropWhile_cons_of_pos ha,
      ih (fun x hx => h x (List.mem_cons_of_mem a hx))]

theorem takeWhile_digits_eq_nil {ys : List Char} (h : startsDigit ys = false) :
    ys.takeWhile isDigitC = [] := by
  cases ys with
  | nil => rfl
  | cons c l =>
    exact List.takeWhile_cons_of_neg (by simpa [startsDigit] using h)

theorem dropWhile_digits_eq_self {ys : List Char} (h : startsDigit ys = false) :
    ys.dropWhile isDigitC = ys := by
  cases ys with
  | nil => rfl
  | cons c l =>
    exact List.dropWhile_cons_of_neg (by simpa [startsDigit] using h)

theorem findallStep_digit_run {d : Char} {ds rest : List Char}
    (hd : isDigitC d = true) (hds : ∀ x ∈ ds, isDigitC x = true)
    (hrd : startsDigit rest = false) (hrdot : startsDot rest = false) :
    findallStep d (ds ++ rest) = (some (.gnum (d :: ds)), rest) := by
  have hq : d ≠ '"' := by
    intro he
    rw [he] at hd
    simp [isDigitC] at hd
  have hdrop : (ds ++ rest).dropWhile isDigitC = rest := by
    rw [dropWhile_append_all hds, dropWhile_digits_eq_self hrd]
  have htake : (ds ++ rest).takeWhile isDigitC = ds := by
    rw [takeWhile_append_all hds, takeWhile_digits_eq_nil hrd, List.append_nil]
  unfold findallStep
  rw [if_neg hq, if_pos hd, hdrop, htake]
  cases rest with
  | nil => rfl
  | cons r rs =>
    have hr : r ≠ '.' := by
      intro he
      rw [he] at hrdot
      simp [startsDot] at hrdot
    split
    next r2 heq =>
      injection heq with h1 h2
      exact absurd h1 hr
    next => rfl

theorem findallStep_float_run {d : Char} {ds fs rest : List Char}
    (hd : isDigitC d = true) (hds : ∀ x ∈ ds, isDigitC x = true)
    (hfs : ∀ x ∈ fs, isDigitC x = true) (hrd : startsDigit rest = false) :
    findallStep d (ds ++ ('.' :: (fs ++ rest))) =
      (some (.gnum (d :: (ds ++ ('.' :: fs)))), rest) := by
  have hq : d ≠ '"' := by
    intro he
    rw [he] at hd
    simp [isDigitC] at hd
  have hdrop : (ds ++ ('.' :: (fs ++ rest))).dropWhile isDigitC = '.' :: (fs ++ rest) := by
    rw [dropWhile_append_all hds]
    exact List.dropWhile_cons_of_neg (by decide)
  have htake : (ds ++ ('.' :: (fs ++ rest))).takeWhile isDigitC = ds := by
    rw [takeWhile_append_all hds, List.takeWhile_cons_of_neg (by decide), List.append_nil]
  have htake2 : (fs ++ rest).takeWhile isDigitC = fs := by
    rw [takeWhile_append_all hfs, takeWhile_digits_eq_nil hrd, List.append_nil]
  have hdrop2 : (fs ++ rest).dropWhile isDigitC = rest := by
    rw [dropWhile_append_all hfs, dropWhile_digits_eq_self hrd]
  unfold findallStep
  rw [if_neg hq, if_pos hd, hdrop]
  simp only [htake, htake2, hdrop2, List.cons_append, List.append_assoc]

theorem digits_contains_no_dot {l : List Char} (h : ∀ x ∈ l, isDigitC x = true) :
    l.contains '.' = false := by
  by_contra hc
  have hmem : '.' ∈ l := by
    have := Bool.not_eq_false (l.contains '.')
    rw [List.contains] at hc
    exact List.elem_iff.mp (by revert hc; cases l.elem '.' <;> simp)
  have := h '.' hmem
  simp [isDigitC] at this

theorem findallStep_gnum_shape {c : Char} {cs s rest : List Char}
    (h : findallStep c cs = (some (.gnum s), rest)) : numShape s = true := by
  unfold findallStep at h
  split_ifs at h with h1 h2 h3 h4
  · split at h
    next => simp at h
    next => simp at h
  · split at h
    next r2 heq =>
      simp only [Prod.mk.injEq, Option.some.injEq, RGroup.gnum.injEq] at h
      obtain ⟨hs, hrest⟩ := h
      subst hs
      have htk : ∀ x ∈ cs.takeWhile isDigitC, isDigitC x = true :=
        fun x hx => List.mem_takeWhile_imp hx
      have hdrop2 : (cs.takeWhile isDigitC ++ '.' :: r2.takeWhile isDigitC).dropWhile
          isDigitC = '.' :: r2.takeWhile isDigitC := by
        rw [dropWhile_append_all htk]
        exact List.dropWhile_cons_of_neg (by decide)
      simp [numShape, h2, hdrop2, List.all_takeWhile, List.cons_append]
    next =>
      simp only [Prod.mk.injEq, Option.some.injEq, RGroup.gnum.injEq] at h
      obtain ⟨hs, hrest⟩ := h
      subst hs
      have htk : ∀ x ∈ cs.takeWhile isDigitC, isDigitC x = true :=
        fun x hx => List.mem_takeWhile_imp hx
      have hdrop : (cs.takeWhile isDigitC).dropWhile isDigitC = [] :=
        List.dropWhile_eq_nil_iff.mpr htk
      simp [numShape, h2, hdrop]
  · simp at h
  · simp at h
  · simp at h

theorem gnum_mem_shape : ∀ (n : Nat) (l s : List Char),
    .gnum s ∈ findallAux n l → numShape s = true := by
  intro n
  induction n with
  | zero => intro l s h; simp [findallAux] at h
  | succ n ih =>
    intro l s h
    cases l with
    | nil => simp [findallAux] at h
    | cons c cs =>
      simp only [findallAux] at h
      cases hs : findallStep c cs with
      | mk og rest =>
        rw [hs] at h
        cases og with
        | some g =>
          simp only [List.mem_cons] at h
          cases h with
          | inl he => exact findallStep_gnum_shape (he ▸ hs)
          | inr hm => exact ih rest s hm
        | none => exact ih rest s h

/-- C8: numeric literal lexing. A maximal run of digits not followed by a
dot lexes to exactly one NUMBER token carrying the integer value of the
digits; a digit run followed by a dot and a further (possibly empty) digit
run lexes to exactly one NUMBER token carrying a floating-point payload;
and every numeral the scan ever classifies as NUMBER has exactly the shape
digits-then-optional-dot-then-digits. -/
theorem c8_number_tokens :
    (∀ (ds rest : List Char), ds ≠ [] → (∀ x ∈ ds, isDigitC x = true) →
      startsDigit rest = false → startsDot rest = false →
      regexFindall (ds ++ rest) = .gnum ds :: regexFindall rest ∧
        emitToken (.gnum ds) = [.number (.int (digitsToNat ds))]) ∧
    (∀ (ds fs rest : List Char), ds ≠ [] → (∀ x ∈ ds, isDigitC x = true) →
      (∀ x ∈ fs, isDigitC x = true) → startsDigit rest = false →
      regexFindall (ds ++ ('.' :: (fs ++ rest))) =
          .gnum (ds ++ ('.' :: fs)) :: regexFindall rest ∧
        emitToken (.gnum (ds ++ ('.' :: fs))) =
          [.number (.float (ds ++ ('.' :: fs)).asString)]) ∧
    (∀ (l s : List Char), .gnum s ∈ regexFindall l → numShape s = true) := by
  refine ⟨?_, ?_, ?_⟩
  · intro ds rest hne hds hrd hrdot
    obtain ⟨d, ds', rfl⟩ := List.exists_cons_of_ne_nil hne
    have hd : isDigitC d = true := hds d (List.mem_cons_self d ds')
    have hds' : ∀ x ∈ ds', isDigitC x = true :=
      fun x hx => hds x (List.mem_cons_of_mem d hx)
    constructor
    · rw [List.cons_append, regexFindall_cons,
        findallStep_digit_run hd hds' hrd hrdot]
    · simp only [emitToken]
      rw [digits_contains_no_dot hds]
      simp
  · intro ds fs rest hne hds hfs hrd
    obtain ⟨d, ds', rfl⟩ := List.exists_cons_of_ne_nil hne
    have hd : isDigitC d = true := hds d (List.mem_cons_self d ds')
    have hds' : ∀ x ∈ ds', isDigitC x = true :=
      fun x hx => hds x (List.mem_cons_of_mem d hx)
    constructor
    · rw [List.cons_append, regexFindall_cons,
        findallStep_float_run hd hds' hfs hrd]
      simp [List.cons_append]
    · have hdot : ((d :: ds') ++ ('.' :: fs)).contains '.' = true := by
        rw [List.contains]
        exact List.elem_iff.mpr (by simp)
      simp only [emitToken]
      rw [hdot]
      simp
  · intro l s h
    exact gnum_mem_shape l.length l s h

/-- Witness for `c8_number_tokens` on the numerals `12` and `3.5`. -/
theorem c8_number_tokens_witness :
    (regexFindall (['1', '2'] ++ ['=']) = .gnum ['1', '2'] :: regexFindall ['='] ∧
      emitToken (.gnum ['1', '2']) = [.number (.int 12)]) ∧
    (regexFindall (['3'] ++ ('.' :: (['5'] ++ [' ']))) =
        .gnum (['3'] ++ ('.' :: ['5'])) :: regexFindall [' '] ∧
      emitToken (.gnum (['3'] ++ ('.' :: ['5']))) =
        [.number (.float (['3'] ++ ('.' :: ['5'])).asString)]) ∧
    numShape ['1', '2'] = true :=
  ⟨c8_number_tokens.1 ['1', '2'] ['='] (by decide) (by decide) (by decide) (by decide),
   c8_number_tokens.2.1 ['3'] ['5'] [' '] (by decide) (by decide) (by decide) (by decide),
   c8_number_tokens.2.2 ['1', '2', '='] ['1', '2'] (by decide)⟩

/-- C10: for every input whose token sequence is empty (the empty text, or
text of blank lines and comments only), the parser succeeds with an empty
symbol table, and the validator maps that table to an empty record list. -/
theorem c10_empty_input_ok (src : String) (h : tokenize src = []) :
    parse (tokenize src) = .ok [] ∧ validate_all [] = some [] := by
  rw [h]
  exact ⟨rfl, rfl⟩

/-- Witness for `c10_empty_input_ok` at a comments-and-blank-lines input. -/
theorem c10_empty_input_ok_witness :
    parse (tokenize "# configuracion vacia\n\n   \n# otro comentario") = .ok [] ∧
      validate_all [] = some [] :=
  c10_empty_input_ok "# configuracion vacia\n\n   \n# otro comentario" rfl

/-- C4 counterexample: the keywords are not rejected outside keyword
position — a program that uses `juego` as an assignment key, `verdadero`
as a section name and `falso` as a map key parses successfully, binding all
three as ordinary keys, against the claim that such parses fail. -/
theorem c4_keywords_counterexample :
    parse (tokenize "juego \"g\" \x7b juego = 1 verdadero \x7b \x7d m = \x7b falso : 2 \x7d \x7d") =
      .ok [("g", .vdict [("juego", .vint 1), ("verdadero", .vdict []),
        ("m", .vdict [("falso", .vint 2)])])] := rfl

/-- C4 amended: `juego`, `verdadero` and `falso` tokenize as IDENTIFIER and
are keywords only in keyword position; in key position any identifier
whatsoever — the three keywords included — is accepted and bound as an
ordinary block key or map key. -/
theorem c4_any_identifier_is_a_key (w gname : String) :
    parse [.identifier "juego", .string gname, .operator '{', .identifier w,
        .operator '=', .number (.int 5), .operator '}'] =
      .ok [(gname, .vdict [(w, .vint 5)])] ∧
    parse [.identifier "juego", .string gname, .operator '{', .identifier "m",
        .operator '=', .operator '{', .identifier w, .operator ':', .number (.int 5),
        .operator '}', .operator '}'] =
      .ok [(gname, .vdict [("m", .vdict [(w, .vint 5)])])] :=
  ⟨rfl, rfl⟩

/-- C2 counterexample: Scenario 3 as written does not parse. In section
syntax `por_linea \x7b ... \x7d` the block loop rejects the NUMBER token
`1` where an identifier is required, and even in assignment syntax the map
loop rejects the unquoted numeral key `1`, because bare numerals lex as
NUMBER, never as IDENT or STRING. -/
theorem c2_scenario3_counterexample :
    parse (tokenize srcTetrisSec3Literal) =
      .error (.syntaxError
        "Error de sintaxis en bloque: Se esperaba un identificador, se encontro 1") ∧
    parse (tokenize srcTetrisSec3MapAssign) =
      .error (.syntaxError
        "Error de sintaxis: Clave invalida en mapa (usa IDENT o STRING), se encontro 1") :=
  ⟨rfl, rfl⟩

/-- C2 amended: with assignment syntax and quoted numeral keys —
`puntuacion \x7b por_linea = \x7b "1":100, "2":300 "3"=500 "4"=800 \x7d \x7d`,
keeping the mixed `:`/`=` separators and the optional commas — the parse
succeeds with the expected four string keys, and the table passes the
tetris validator given the valid `rejilla`/`velocidad` sections. -/
theorem c2_scenario3_amended_ok :
    parse (tokenize srcTetrisSec3Accepted) = .ok tblTetrisSec3 ∧
      validate_all tblTetrisSec3 =
        some [{ juego := "tetris", valido := true, mensaje := "Tetris OK" }] :=
  ⟨rfl, rfl⟩

/-- C9 counterexample: an input containing the assignment `a = ""` whose
empty string literal is followed by another value does not fail — the
tokenizer emits no token at all for `""` and the parser simply binds `a`
to the next value `5`, so the universally claimed parse failure is false. -/
theorem c9_empty_string_counterexample :
    tokenize "juego \"g\" \x7b a = \"\" 5 \x7d" =
      [.identifier "juego", .string "g", .operator '{', .identifier "a",
       .operator '=', .number (.int 5), .operator '}'] ∧
    parse (tokenize "juego \"g\" \x7b a = \"\" 5 \x7d") =
      .ok [("g", .vdict [("a", .vint 5)])] :=
  ⟨rfl, rfl⟩

/-- C1 counterexample: a successfully parsed table on which `validate_all`
raises. The snake entity binds its three sections to scalars, so
`validate_snake` reaches `rej.get('ancho')` on an int — an uncaught
`AttributeError` (result `none`) instead of a `valid=false` record. -/
theorem c1_validator_raises_counterexample :
    parse (tokenize srcSnakeScalarSections) =
      .ok [("snake", .vdict [("rejilla", .vint 1), ("velocidad", .vint 2),
        ("controles", .vint 3)])] ∧
    validate_all [("snake", .vdict [("rejilla", .vint 1), ("velocidad", .vint 2),
        ("controles", .vint 3)])] = none :=
  ⟨rfl, rfl⟩

theorem dictHasKey_false_not_mem {m : List (String × Value)} {k : String}
    (h : dictHasKey m k = false) : k ∉ m.map Prod.fst := by
  induction m with
  | nil => simp
  | cons p rest ih =>
    obtain ⟨k2, v⟩ := p
    simp only [dictHasKey, dict_lookup] at h
    by_cases hk : k2 = k
    · rw [if_pos hk] at h
      simp at h
    · rw [if_neg hk] at h
      simp only [List.map_cons, List.mem_cons]
      rintro (rfl | hmem)
      · exact hk rfl
      · exact ih h hmem

theorem nodup_append_key {m : List (String × Value)} {k : String} {v : Value}
    (hnd : (m.map Prod.fst).Nodup) (h : dictHasKey m k = false) :
    ((m ++ [(k, v)]).map Prod.fst).Nodup := by
  rw [List.map_append]
  rw [List.nodup_append]
  refine ⟨hnd, List.nodup_singleton k, ?_⟩
  intro a ha hb
  simp at hb
  subst hb
  exact dictHasKey_false_not_mem h ha

theorem values_append_unique {m : List (String × Value)} {k : String} {v : Value}
    (hm : ∀ p ∈ m, ValueUnique p.2) (hv : ValueUnique v) :
    ∀ p ∈ m ++ [(k, v)], ValueUnique p.2 := by
  intro p hp
  rcases List.mem_append.mp hp with h | h
  · exact hm p h
  · simp at h
    rw [h]
    exact hv

theorem snake_controls_total (cm : List (String × Value)) :
    ∀ ks : List String, ∃ pr, snake_controls (.vdict cm) ks = some pr := by
  intro ks
  induction ks with
  | nil => exact ⟨(true, "Snake OK"), rfl⟩
  | cons k ks ih =>
    by_cases hk : is_str (dict_lookup k cm) = true
    · obtain ⟨pr, hpr⟩ := ih
      exact ⟨pr, by simp [snake_controls, hk, hpr]⟩
    · exact ⟨(false, "Snake: controles." ++ k ++ " debe ser cadena"),
        by simp [snake_controls, hk]⟩

theorem validate_snake_isSome {cfg : Value} (h : sections_are_dicts cfg = true) :
    (validate_snake cfg).isSome = true := by
  cases cfg with
  | vint n => simp [sections_are_dicts] at h
  | vfloat t => simp [sections_are_dicts] at h
  | vstr s => simp [sections_are_dicts] at h
  | vbool b => simp [sections_are_dicts] at h
  | vlist l => simp [sections_are_dicts] at h
  | vdict m =>
    simp only [sections_are_dicts, List.all_eq_true] at h
    by_cases hmiss : ["rejilla", "velocidad", "controles"].filter
        (fun k => !dictHasKey m k) = []
    · have hall := List.filter_eq_nil_iff.mp hmiss
      have hr : dictHasKey m "rejilla" = true := by
        simpa using hall "rejilla" (by simp)
      have hv : dictHasKey m "velocidad" = true := by
        simpa using hall "velocidad" (by simp)
      have hc : dictHasKey m "controles" = true := by
        simpa using hall "controles" (by simp)
      simp only [dictHasKey] at hr hv hc
      obtain ⟨rej, hrej⟩ := Option.isSome_iff_exists.mp hr
      obtain ⟨vel, hvel⟩ := Option.isSome_iff_exists.mp hv
      obtain ⟨con, hcon⟩ := Option.isSome_iff_exists.mp hc
      have hrd := h "rejilla" (by simp)
      rw [hrej] at hrd
      obtain ⟨rm, rfl⟩ : ∃ rm, rej = .vdict rm := by
        cases rej
        case vdict rm => exact ⟨rm, rfl⟩
        all_goals simp at hrd
      have hvd := h "velocidad" (by simp)
      rw [hvel] at hvd
      obtain ⟨vm, rfl⟩ : ∃ vm, vel = .vdict vm := by
        cases vel
        case vdict vm => exact ⟨vm, rfl⟩
        all_goals simp at hvd
      have hcd := h "controles" (by simp)
      rw [hcon] at hcd
      obtain ⟨cm, rfl⟩ : ∃ cm, con = .vdict cm := by
        cases con
        case vdict cm => exact ⟨cm, rfl⟩
        all_goals simp at hcd
      obtain ⟨pr, hpr⟩ := snake_controls_total cm ["arriba", "abajo", "izquierda", "derecha"]
      by_cases h1 : (is_int_strict (dict_lookup "ancho" rm)
          && int_gt_zero (dict_lookup "ancho" rm)) = true
      · by_cases h2 : (is_int_strict (dict_lookup "alto" rm)
            && int_gt_zero (dict_lookup "alto" rm)) = true
        · by_cases h3 : (is_int_strict (dict_lookup "tick_ms" vm)
              && int_gt_zero (dict_lookup "tick_ms" vm)) = true
          · simp [validate_snake, hmiss, hrej, hvel, hcon, h1, h2, h3, hpr]
          · simp [validate_snake, hmiss, hrej, hvel, hcon, h1, h2, h3]
        · simp [validate_snake, hmiss, hrej, hvel, hcon, h1, h2]
      · simp [validate_snake, hmiss, hrej, hvel, hcon, h1]
    · simp [validate_snake, hmiss]

theorem validate_tetris_isSome {cfg : Value} (h : sections_are_dicts cfg = true) :
    (validate_tetris cfg).isSome = true := by
  cases cfg with
  | vint n => simp [sections_are_dicts] at h
  | vfloat t => simp [sections_are_dicts] at h
  | vstr s => simp [sections_are_dicts] at h
  | vbool b => simp [sections_are_dicts] at h
  | vlist l => simp [sections_are_dicts] at h
  | vdict m =>
    simp only [sections_are_dicts, List.all_eq_true] at h
    by_cases hmiss : ["rejilla", "velocidad", "puntuacion"].filter
        (fun k => !dictHasKey m k) = []
    · have hall := List.filter_eq_nil_iff.mp hmiss
      have hr : dictHasKey m "rejilla" = true := by
        simpa using hall "rejilla" (by simp)
      have hv : dictHasKey m "velocidad" = true := by
        simpa using hall "velocidad" (by simp)
      have hp : dictHasKey m "puntuacion" = true := by
        simpa using hall "puntuacion" (by simp)
      simp only [dictHasKey] at hr hv hp
      obtain ⟨rej, hrej⟩ := Option.isSome_iff_exists.mp hr
      obtain ⟨vel, hvel⟩ := Option.isSome_iff_exists.mp hv
      obtain ⟨pun, hpun⟩ := Option.isSome_iff_exists.mp hp
      have hrd := h "rejilla" (by simp)
      rw [hrej] at hrd
      obtain ⟨rm, rfl⟩ : ∃ rm, rej = .vdict rm := by
        cases rej
        case vdict rm => exact ⟨rm, rfl⟩
        all_goals simp at hrd
      have hvd := h "velocidad" (by simp)
      rw [hvel] at hvd
      obtain ⟨vm, rfl⟩ : ∃ vm, vel = .vdict vm := by
        cases vel
        case vdict vm => exact ⟨vm, rfl⟩
        all_goals simp at hvd
      have hpd := h "puntuacion" (by simp)
      rw [hpun] at hpd
      obtain ⟨pm, rfl⟩ : ∃ pm, pun = .vdict pm := by
        cases pun
        case vdict pm => exact ⟨pm, rfl⟩
        all_goals simp at hpd
      by_cases h1 : (is_int_strict (dict_lookup "ancho" rm)
          && int_gt_zero (dict_lookup "ancho" rm)) = true
      · by_cases h2 : (is_int_strict (dict_lookup "alto" rm)
            && int_gt_zero (dict_lookup "alto" rm)) = true
        · by_cases h3 : (is_int_strict (dict_lookup "gravedad_ms" vm)
              && int_gt_zero (dict_lookup "gravedad_ms" vm)) = true
          · cases hpl : dict_lookup "por_linea" pm with
            | none => simp [validate_tetris, hmiss, hrej, hvel, hpun, h1, h2, h3, hpl]
            | some pl =>
              cases pl with
              | vdict plm =>
                cases hlc : tetris_lines_check plm ["1", "2", "3", "4"] with
                | some msg =>
                  simp [validate_tetris, hmiss, hrej, hvel, hpun, h1, h2, h3, hpl, hlc]
                | none =>
                  cases hoc : tetris_opts_check vm ["soft_drop_ms", "lock_delay_ms"] with
                  | some msg =>
                    simp [validate_tetris, hmiss, hrej, hvel, hpun, h1, h2, h3, hpl, hlc, hoc]
                  | none =>
                    simp [validate_tetris, hmiss, hrej, hvel, hpun, h1, h2, h3, hpl, hlc, hoc]
              | vint n => simp [validate_tetris, hmiss, hrej, hvel, hpun, h1, h2, h3, hpl]
              | vfloat t => simp [validate_tetris, hmiss, hrej, hvel, hpun, h1, h2, h3, hpl]
              | vstr s => simp [validate_tetris, hmiss, hrej, hvel, hpun, h1, h2, h3, hpl]
              | vbool b => simp [validate_tetris, hmiss, hrej, hvel, hpun, h1, h2, h3, hpl]
              | vlist l => simp [validate_tetris, hmiss, hrej, hvel, hpun, h1, h2, h3, hpl]
          · simp [validate_tetris, hmiss, hrej, hvel, hpun, h1, h2, h3]
        · simp [validate_tetris, hmiss, hrej, hvel, hpun, h1, h2]
      · simp [validate_tetris, hmiss, hrej, hvel, hpun, h1]
    · simp [validate_tetris, hmiss]

/-- C1 amended: given the symbol table of a successful parse, whenever
every `snake`/`tetris` entity binds its sections (`rejilla`, `velocidad`,
`controles`, `puntuacion`, where present) to nested blocks, `validate_all`
raises nothing and produces exactly one ValidationRecord per entity, in the
table's declaration order, with all failures encoded inside the records.
(When such a section is a scalar, validation raises instead — see the
counterexample.) -/
theorem c1_validator_total_on_dict_sections (tbl : List (String × Value))
    (h : ∀ p ∈ tbl, (p.1 = "snake" ∨ p.1 = "tetris") → sections_are_dicts p.2 = true) :
    ∃ rs, validate_all tbl = some rs ∧ rs.map VRecord.juego = tbl.map Prod.fst := by
  induction tbl with
  | nil => exact ⟨[], rfl, rfl⟩
  | cons p rest ih =>
    obtain ⟨g, cfg⟩ := p
    obtain ⟨rs, hrs, hmap⟩ := ih fun q hq hgq => h q (List.mem_cons_of_mem _ hq) hgq
    have hdisp : ∃ pr, (if g = "snake" then validate_snake cfg
        else if g = "tetris" then validate_tetris cfg
        else some (true, "Juego generico (sin validador especifico)")) = some pr := by
      by_cases hs : g = "snake"
      · rw [if_pos hs]
        exact Option.isSome_iff_exists.mp
          (validate_snake_isSome (h (g, cfg) (List.mem_cons_self _ _) (Or.inl hs)))
      · by_cases ht : g = "tetris"
        · rw [if_neg hs, if_pos ht]
          exact Option.isSome_iff_exists.mp
            (validate_tetris_isSome (h (g, cfg) (List.mem_cons_self _ _) (Or.inr ht)))
        · rw [if_neg hs, if_neg ht]
          exact ⟨_, rfl⟩
    obtain ⟨⟨ok, msg⟩, hpr⟩ := hdisp
    refine ⟨{ juego := g, valido := ok, mensaje := msg } :: rs, ?_, ?_⟩
    · simp only [validate_all, hpr, hrs]
    · simp [hmap]

/-- Witness for `c1_validator_total_on_dict_sections` on a two-entity table
(the minimal snake table and a generic entity). -/
theorem c1_validator_total_on_dict_sections_witness :
    ∃ rs, validate_all
        (tblSnakeMinimal ++ [("pong", .vdict [("x", .vint 1)])]) = some rs ∧
      rs.map VRecord.juego =
        (tblSnakeMinimal ++ [("pong", Value.vdict [("x", Value.vint 1)])]).map Prod.fst :=
  c1_validator_total_on_dict_sections
    (tblSnakeMinimal ++ [("pong", .vdict [("x", .vint 1)])])
    (by
      intro p hp hg
      simp only [tblSnakeMinimal, List.cons_append, List.nil_append,
        List.mem_cons, List.not_mem_nil, or_false] at hp
      rcases hp with rfl | rfl
      · rfl
      · rcases hg with hg | hg <;> simp at hg)

theorem parser_unique_invariant : ∀ n : Nat,
    (∀ ts v ts2, parse_value n ts = .ok (v, ts2) → ValueUnique v) ∧
    (∀ ts v ts2, parse_list n ts = .ok (v, ts2) → ValueUnique v) ∧
    (∀ acc ts v ts2, (∀ x ∈ acc, ValueUnique x) →
      list_loop n acc ts = .ok (v, ts2) → ValueUnique v) ∧
    (∀ acc ts v ts2, (∀ x ∈ acc, ValueUnique x) →
      list_elem n acc ts = .ok (v, ts2) → ValueUnique v) ∧
    (∀ ts v ts2, parse_map n ts = .ok (v, ts2) → ValueUnique v) ∧
    (∀ mp ts v ts2, (mp.map Prod.fst).Nodup → (∀ p ∈ mp, ValueUnique p.2) →
      map_loop n mp ts = .ok (v, ts2) → ValueUnique v) ∧
    (∀ mp k ts v ts2, (mp.map Prod.fst).Nodup → (∀ p ∈ mp, ValueUnique p.2) →
      map_pair n mp k ts = .ok (v, ts2) → ValueUnique v) ∧
    (∀ ts v ts2, parse_block_section n ts = .ok (v, ts2) → ValueUnique v) ∧
    (∀ blk ts v ts2, (blk.map Prod.fst).Nodup → (∀ p ∈ blk, ValueUnique p.2) →
      block_loop n blk ts = .ok (v, ts2) → ValueUnique v) ∧
    (∀ st ts tbl, TableUnique st → parse_loop n st ts = .ok tbl → TableUnique tbl) := by
  intro n
  induction n with
  | zero =>
    exact ⟨fun ts v ts2 h => by simp [parse_value] at h,
      fun ts v ts2 h => by simp [parse_list] at h,
      fun acc ts v ts2 _ h => by simp [list_loop] at h,
      fun acc ts v ts2 _ h => by simp [list_elem] at h,
      fun ts v ts2 h => by simp [parse_map] at h,
      fun mp ts v ts2 _ _ h => by simp [map_loop] at h,
      fun mp k ts v ts2 _ _ h => by simp [map_pair] at h,
      fun ts v ts2 h => by simp [parse_block_section] at h,
      fun blk ts v ts2 _ _ h => by simp [block_loop] at h,
      fun st ts tbl _ h => by simp [parse_loop] at h⟩
  | succ n ih =>
    obtain ⟨ihV, ihL, ihLL, ihLE, ihM, ihML, ihMP, ihB, ihBL, ihP⟩ := ih
    refine ⟨?_, ?_, ?_, ?_, ?_, ?_, ?_, ?_, ?_, ?_⟩
    · -- parse_value
      intro ts v ts2 h
      simp only [parse_value] at h
      split at h
      · exact Except.noConfusion h
      split at h
      · simp only [Except.ok.injEq, Prod.mk.injEq] at h
        obtain ⟨rfl, rfl⟩ := h
        exact ValueUnique.vstr _
      · simp only [Except.ok.injEq, Prod.mk.injEq] at h
        obtain ⟨rfl, rfl⟩ := h
        exact ValueUnique.vint _
      · simp only [Except.ok.injEq, Prod.mk.injEq] at h
        obtain ⟨rfl, rfl⟩ := h
        exact ValueUnique.vfloat _
      · split at h
        · simp only [Except.ok.injEq, Prod.mk.injEq] at h
          obtain ⟨rfl, rfl⟩ := h
          exact ValueUnique.vbool _
        · split at h
          · simp only [Except.ok.injEq, Prod.mk.injEq] at h
            obtain ⟨rfl, rfl⟩ := h
            exact ValueUnique.vbool _
          · exact Except.noConfusion h
      · exact ihL _ _ _ h
      · exact ihM _ _ _ h
      · exact Except.noConfusion h
    · -- parse_list
      intro ts v ts2 h
      simp only [parse_list] at h
      split at h
      · exact Except.noConfusion h
      · exact ihLL _ _ _ _ (by simp) h
    · -- list_loop
      intro acc ts v ts2 hacc h
      simp only [list_loop] at h
      split at h
      · exact Except.noConfusion h
      split at h
      · simp only [Except.ok.injEq, Prod.mk.injEq] at h
        obtain ⟨rfl, rfl⟩ := h
        exact ValueUnique.vlist _ hacc
      · split at h
        · exact Except.noConfusion h
        · exact ihLE _ _ _ _ hacc h
      · exact ihLE _ _ _ _ hacc h
    · -- list_elem
      intro acc ts v ts2 hacc h
      simp only [list_elem] at h
      split at h
      · exact Except.noConfusion h
      next v0 ts2' heq =>
        have hv0 : ValueUnique v0 := ihV _ _ _ heq
        have hacc2 : ∀ x ∈ acc ++ [v0], ValueUnique x := by
          intro x hx
          rcases List.mem_append.mp hx with hx | hx
          · exact hacc x hx
          · simp at hx
            rw [hx]
            exact hv0
        split at h
        · exact ihLL _ _ _ _ hacc2 h
        · exact ihLL _ _ _ _ hacc2 h
    · -- parse_map
      intro ts v ts2 h
      simp only [parse_map] at h
      split at h
      · exact Except.noConfusion h
      · exact ihML _ _ _ _ (by simp) (by simp) h
    · -- map_loop
      intro mp ts v ts2 hnd hvals h
      simp only [map_loop] at h
      split at h
      · exact Except.noConfusion h
      split at h
      · simp only [Except.ok.injEq, Prod.mk.injEq] at h
        obtain ⟨rfl, rfl⟩ := h
        exact ValueUnique.vdict _ hnd hvals
      · exact ihML _ _ _ _ hnd hvals h
      · exact ihMP _ _ _ _ _ hnd hvals h
      · exact ihMP _ _ _ _ _ hnd hvals h
      · exact Except.noConfusion h
    · -- map_pair
      intro mp k ts v ts2 hnd hvals h
      simp only [map_pair] at h
      split at h
      · exact Except.noConfusion h
      split at h
      · exact Except.noConfusion h
      next v0 rest3 heq =>
        split at h
        · exact Except.noConfusion h
        next hdup =>
          have hkey : dictHasKey mp k = false := by simpa using hdup
          exact ihML _ _ _ _ (nodup_append_key hnd hkey)
            (values_append_unique hvals (ihV _ _ _ heq)) h
    · -- parse_block_section
      intro ts v ts2 h
      simp only [parse_block_section] at h
      split at h
      · exact Except.noConfusion h
      · exact ihBL _ _ _ _ (by simp) (by simp) h
    · -- block_loop
      intro blk ts v ts2 hnd hvals h
      simp only [block_loop] at h
      split at h
      · exact Except.noConfusion h
      split at h
      · simp only [Except.ok.injEq, Prod.mk.injEq] at h
        obtain ⟨rfl, rfl⟩ := h
        exact ValueUnique.vdict _ hnd hvals
      · split at h
        · -- assignment member
          split at h
          · exact Except.noConfusion h
          next v0 rest3 heq =>
            split at h
            · exact Except.noConfusion h
            next hdup =>
              simp only [Bool.not_eq_true] at hdup
              exact ihBL _ _ _ _ (nodup_append_key hnd hdup)
                (values_append_unique hvals (ihV _ _ _ heq)) h
        · -- section member
          split at h
          · exact Except.noConfusion h
          next sub rest3 heq =>
            split at h
            · exact Except.noConfusion h
            next hdup =>
              simp only [Bool.not_eq_true] at hdup
              exact ihBL _ _ _ _ (nodup_append_key hnd hdup)
                (values_append_unique hvals (ihB _ _ _ heq)) h
        · exact Except.noConfusion h
      · exact Except.noConfusion h
    · -- parse_loop
      intro st ts tbl hst h
      simp only [parse_loop] at h
      split at h
      · simp only [Except.ok.injEq] at h
        rw [← h]
        exact hst
      split at h
      · split at h
        · split at h
          next gname rest2 =>
            split at h
            · exact Except.noConfusion h
            next blk rest3 heq =>
              split at h
              · exact Except.noConfusion h
              next hdup =>
                have hkey : dictHasKey st gname = false := by simpa using hdup
                exact ihP _ _ _ ⟨nodup_append_key hst.1 hkey,
                  values_append_unique hst.2 (ihB _ _ _ heq)⟩ h
          · exact Except.noConfusion h
        · exact Except.noConfusion h
      · exact Except.noConfusion h

/-- C5: key uniqueness. Every successfully parsed symbol table has pairwise
distinct entity names, and every dict anywhere inside it — block sections
and maps alike — has pairwise distinct keys at its own nesting level;
moreover a second binding of an already-bound key at the same block level
(assignment or section form) aborts with the redefinition error, and a
duplicate key in a map aborts with the duplicate-key error, in each case
instead of returning a table. -/
theorem c5_unique_keys :
    (∀ ts tbl, parse ts = .ok tbl → TableUnique tbl) ∧
    (∀ (n : Nat) (blk : List (String × Value)) (k : String) (ts : List Token)
        (v : Value) (ts2 : List Token), dictHasKey blk k = true →
      parse_value n ts = .ok (v, ts2) →
      block_loop (n + 1) blk (.identifier k :: .operator '=' :: ts) =
        .error (.syntaxError ("Error: Redefinicion de clave '" ++ k
          ++ "' en el mismo bloque"))) ∧
    (∀ (n : Nat) (blk : List (String × Value)) (k : String) (ts : List Token)
        (sub : Value) (ts2 : List Token), dictHasKey blk k = true →
      parse_block_section n (.operator '{' :: ts) = .ok (sub, ts2) →
      block_loop (n + 1) blk (.identifier k :: .operator '{' :: ts) =
        .error (.syntaxError ("Error: Redefinicion de seccion '" ++ k
          ++ "' en el mismo bloque"))) ∧
    (∀ (n : Nat) (mp : List (String × Value)) (k : String) (ts : List Token)
        (v : Value) (ts2 : List Token), dictHasKey mp k = true →
      parse_value n ts = .ok (v, ts2) →
      map_pair (n + 1) mp k (.operator ':' :: ts) =
        .error (.syntaxError ("Error: Clave duplicada '" ++ k ++ "' en mapa"))) := by
  refine ⟨?_, ?_, ?_, ?_⟩
  · intro ts tbl h
    exact (parser_unique_invariant (5 * ts.length + 8)).2.2.2.2.2.2.2.2.2 [] ts tbl
      ⟨List.nodup_nil, by simp⟩ h
  · intro n blk k ts v ts2 hdup hval
    have hstep : block_loop (n + 1) blk (.identifier k :: .operator '=' :: ts) =
        (match parse_value n ts with
         | .error e => .error e
         | .ok (v0, rest3) =>
           if dictHasKey blk k then
             .error (.syntaxError ("Error: Redefinicion de clave '" ++ k
               ++ "' en el mismo bloque"))
           else block_loop n (blk ++ [(k, v0)]) rest3) := rfl
    rw [hstep, hval]
    simp [hdup]
  · intro n blk k ts sub ts2 hdup hsec
    have hstep : block_loop (n + 1) blk (.identifier k :: .operator '{' :: ts) =
        (match parse_block_section n (.operator '{' :: ts) with
         | .error e => .error e
         | .ok (sub0, rest3) =>
           if dictHasKey blk k then
             .error (.syntaxError ("Error: Redefinicion de seccion '" ++ k
               ++ "' en el mismo bloque"))
           else block_loop n (blk ++ [(k, sub0)]) rest3) := rfl
    rw [hstep, hsec]
    simp [hdup]
  · intro n mp k ts v ts2 hdup hval
    have hstep : map_pair (n + 1) mp k (.operator ':' :: ts) =
        (match parse_value n ts with
         | .error e => .error e
         | .ok (v0, rest3) =>
           if dictHasKey mp k then
             .error (.syntaxError ("Error: Clave duplicada '" ++ k ++ "' en mapa"))
           else map_loop n (mp ++ [(k, v0)]) rest3) := rfl
    rw [hstep, hval]
    simp [hdup]

/-- Witness for `c5_unique_keys`: the parsed minimal snake table satisfies
the uniqueness invariant, and a duplicate assignment key aborts. -/
theorem c5_unique_keys_witness :
    TableUnique tblSnakeMinimal ∧
    block_loop 2 [("a", .vint 1)] (.identifier "a" :: .operator '=' ::
        [.number (.int 2)]) =
      .error (.syntaxError "Error: Redefinicion de clave 'a' en el mismo bloque") :=
  ⟨c5_unique_keys.1 (tokenize srcSnakeMinimal) tblSnakeMinimal rfl,
   c5_unique_keys.2.1 1 [("a", .vint 1)] "a" [.number (.int 2)] (.vint 2) [] rfl rfl⟩

/-- C7: a bare identifier other than the boolean keywords in value position
inside a list aborts with the distinct semantic error class (`NameError`,
"no ha sido definido como valor literal en listas"), while the same bare
identifier in value position outside a list — in `parse_value`, hence after
the `=` of a block assignment and after the separator of a map pair —
aborts with the generic syntax error class. -/
theorem c7_identifier_error_classes (w : String) (h1 : w ≠ "verdadero")
    (h2 : w ≠ "falso") (n : Nat) (ts : List Token) :
    parse_list (n + 2) (.operator '[' :: .identifier w :: ts) =
      .error (.nameError ("Error semantico: El identificador '" ++ w
        ++ "' no ha sido definido como valor literal en listas.")) ∧
    parse_value (n + 1) (.identifier w :: ts) =
      .error (.syntaxError ("Error de sintaxis: Valor inesperado '" ++ w ++ "'")) ∧
    (∀ (blk : List (String × Value)) (k : String),
      block_loop (n + 2) blk (.identifier k :: .operator '=' :: .identifier w :: ts) =
        .error (.syntaxError ("Error de sintaxis: Valor inesperado '" ++ w ++ "'"))) ∧
    (∀ (mp : List (String × Value)) (k : String),
      map_pair (n + 2) mp k (.operator '=' :: .identifier w :: ts) =
        .error (.syntaxError ("Error de sintaxis: Valor inesperado '" ++ w ++ "'"))) := by
  have hval : parse_value (n + 1) (.identifier w :: ts) =
      .error (.syntaxError ("Error de sintaxis: Valor inesperado '" ++ w ++ "'")) := by
    simp [parse_value, h1, h2]
  refine ⟨?_, hval, ?_, ?_⟩
  · simp [parse_list, expect_operator, list_loop, h1, h2]
  · intro blk k
    have hstep : block_loop (n + 2) blk
        (.identifier k :: .operator '=' :: .identifier w :: ts) =
        (match parse_value (n + 1) (.identifier w :: ts) with
         | .error e => .error e
         | .ok (v0, rest3) =>
           if dictHasKey blk k then
             .error (.syntaxError ("Error: Redefinicion de clave '" ++ k
               ++ "' en el mismo bloque"))
           else block_loop (n + 1) (blk ++ [(k, v0)]) rest3) := rfl
    rw [hstep, hval]
  · intro mp k
    have hstep : map_pair (n + 2) mp k (.operator '=' :: .identifier w :: ts) =
        (match parse_value (n + 1) (.identifier w :: ts) with
         | .error e => .error e
         | .ok (v0, rest3) =>
           if dictHasKey mp k then
             .error (.syntaxError ("Error: Clave duplicada '" ++ k ++ "' en mapa"))
           else map_loop (n + 1) (mp ++ [(k, v0)]) rest3) := rfl
    rw [hstep, hval]

/-- Witness for `c7_identifier_error_classes` at the identifier `foo` of
Scenario 5, in list, plain value and assignment positions. -/
theorem c7_identifier_error_classes_witness :
    parse_list 2 [.operator '[', .identifier "foo", .number (.int 3), .operator ']'] =
      .error (.nameError ("Error semantico: El identificador 'foo' no ha sido definido como valor literal en listas.")) ∧
    parse_value 1 [.identifier "foo", .number (.int 3), .operator ']'] =
      .error (.syntaxError "Error de sintaxis: Valor inesperado 'foo'") ∧
    block_loop 2 [] (.identifier "lista" :: .operator '=' ::
        .identifier "foo" :: [.number (.int 3), .operator ']']) =
      .error (.syntaxError "Error de sintaxis: Valor inesperado 'foo'") :=
  ⟨(c7_identifier_error_classes "foo" (by decide) (by decide) 0
      [.number (.int 3), .operator ']']).1,
   (c7_identifier_error_classes "foo" (by decide) (by decide) 0
      [.number (.int 3), .operator ']']).2.1,
   (c7_identifier_error_classes "foo" (by decide) (by decide) 0
      [.number (.int 3), .operator ']']).2.2.1 [] "lista"⟩

/-- C6: a Boolean never satisfies the strict-integer rule. Python booleans
are instances of `int` (`isinstance_int` is true on them), but
`is_int_strict` excludes them, so a snake configuration whose
`rejilla.ancho` holds a boolean is validated to a `valid=false` record
rather than passing the integer rule. -/
theorem c6_bool_not_strict_int (m rm : List (String × Value)) (b : Bool)
    (vel con : Value)
    (hrej : dict_lookup "rejilla" m = some (.vdict rm))
    (hvel : dict_lookup "velocidad" m = some vel)
    (hcon : dict_lookup "controles" m = some con)
    (hancho : dict_lookup "ancho" rm = some (.vbool b)) :
    isinstance_int (some (.vbool b)) = true ∧
    is_int_strict (some (.vbool b)) = false ∧
    validate_all [("snake", .vdict m)] =
      some [{ juego := "snake", valido := false,
              mensaje := "Snake: rejilla.ancho debe ser entero > 0" }] := by
  refine ⟨rfl, rfl, ?_⟩
  simp [validate_all, validate_snake, dictHasKey, hrej, hvel, hcon, hancho,
    is_int_strict, isinstance_int, isinstance_bool]

/-- Witness for `c6_bool_not_strict_int`: the parsed table of a config with
`ancho = verdadero`. -/
theorem c6_bool_not_strict_int_witness :
    isinstance_int (some (.vbool true)) = true ∧
    is_int_strict (some (.vbool true)) = false ∧
    validate_all [("snake", .vdict
      [("rejilla", .vdict [("ancho", .vbool true), ("alto", .vint 10)]),
       ("velocidad", .vdict [("tick_ms", .vint 100)]),
       ("controles", .vdict [("arriba", .vstr "W")])])] =
      some [{ juego := "snake", valido := false,
              mensaje := "Snake: rejilla.ancho debe ser entero > 0" }] :=
  c6_bool_not_strict_int
    [("rejilla", .vdict [("ancho", .vbool true), ("alto", .vint 10)]),
     ("velocidad", .vdict [("tick_ms", .vint 100)]),
     ("controles", .vdict [("arriba", .vstr "W")])]
    [("ancho", .vbool true), ("alto", .vint 10)] true
    (.vdict [("tick_ms", .vint 100)]) (.vdict [("arriba", .vstr "W")])
    rfl rfl rfl rfl

end Analizador
